import Mathlib

/-
Verification of `fib_imperative` from
`src/experimental/riscv-sim/Extra/fib_imperative.cpp`:

    int fib_imperative( int n ) {
        int fib1 = 1;
        int fib2 = 1;
        int fibonacci = fib1;
        int i = 2;
        while ( i < n ) {
            fibonacci = fib1 + fib2;
            fib1 = fib2;
            fib2 = fibonacci;
            i = i + 1;
        }
        return fibonacci;
    }

The C type `int` is a 32-bit signed two's-complement integer.  We embed it as
`Int` together with an explicit wrap `wrap32` applied at every arithmetic
operation: `wrap32 x` is the value in `[-2^31, 2^31)` that is congruent to
`x` modulo `2^32`, i.e. the two's-complement reinterpretation of `x mod 2^32`.
The numerals 2147483648 and 4294967296 are 2^31 and 2^32.
-/

/-- Two's-complement wrap to 32 bits: the unique representative of
`x mod 2^32` in `[-2147483648, 2147483648)`. -/
def wrap32 (x : Int) : Int :=
  (x + 2147483648) % 4294967296 - 2147483648

/-- The mathematical Fibonacci sequence in the source's indexing convention:
`fibSpec 1 = 1`, `fibSpec 2 = 1`, `fibSpec k = fibSpec (k-1) + fibSpec (k-2)`.
(The value `fibSpec 0 = 0` is consistent with the recurrence at `k = 2`.) -/
def fibSpec : Nat → Nat
  | 0 => 0
  | 1 => 1
  | n + 2 => fibSpec n + fibSpec (n + 1)

/-- The loop of `fib_imperative`, recursion on the number of remaining
iterations.  Arguments are the variables `fib1`, `fib2`, `fibonacci`; one
step performs `fibonacci = fib1 + fib2; fib1 = fib2; fib2 = fibonacci`
in 32-bit arithmetic. -/
def fibLoop : Nat → Int → Int → Int → Int
  | 0, _, _, c => c
  | k + 1, a, b, _ => fibLoop k b (wrap32 (a + b)) (wrap32 (a + b))

/-- `fib_imperative`: the loop `while (i < n)` starts at `i = 2` and
increments `i` by 1, so it runs `(n - 2).toNat = max 0 (n-2)` times;
`fib1`, `fib2`, `fibonacci` all start at 1. -/
def fib_imperative (n : Int) : Int :=
  fibLoop (n - 2).toNat 1 1 1

/-- The local variables of `fib_imperative` live in this state. -/
structure LoopState where
  fib1 : Int
  fib2 : Int
  fibonacci : Int
  i : Int
deriving DecidableEq

/-- One execution of the loop body, in source order:
`fibonacci = fib1 + fib2; fib1 = fib2; fib2 = fibonacci; i = i + 1`,
each assignment in 32-bit arithmetic. -/
def loopBody (s : LoopState) : LoopState :=
  { fib1 := s.fib2
    fib2 := wrap32 (s.fib1 + s.fib2)
    fibonacci := wrap32 (s.fib1 + s.fib2)
    i := wrap32 (s.i + 1) }

/-- The state at the first evaluation of the loop guard:
`fib1 = fib2 = fibonacci = 1`, `i = 2`. -/
def fibInitState : LoopState :=
  { fib1 := 1, fib2 := 1, fibonacci := 1, i := 2 }

/-- Small-step execution of `while (i < n) body` with explicit fuel.
Returns `some (finalState, count)` where `count` is the number of body
executions, or `none` if the fuel is exhausted while the guard still holds. -/
def loopRun (n : Int) : Nat → LoopState → Option (LoopState × Nat)
  | 0, s => if s.i < n then none else some (s, 0)
  | fuel + 1, s =>
      if s.i < n then
        (loopRun n fuel (loopBody s)).map (fun p => (p.1, p.2 + 1))
      else
        some (s, 0)

/-! ### Basic facts about `wrap32` -/

theorem wrap32_eq_self (x : Int) (h1 : -2147483648 ≤ x) (h2 : x < 2147483648) :
    wrap32 x = x := by
  unfold wrap32
  omega

theorem wrap32_add_wrap (a b : Int) :
    wrap32 (wrap32 a + wrap32 b) = wrap32 (a + b) := by
  unfold wrap32
  omega

/-! ### Facts about `fibSpec` -/

theorem fibSpec_add_two (n : Nat) :
    fibSpec (n + 2) = fibSpec n + fibSpec (n + 1) := rfl

theorem fibSpec_cast_add (m : Nat) :
    ((fibSpec (m + 2) : Nat) : Int) = (fibSpec m : Int) + (fibSpec (m + 1) : Int) := by
  rw [fibSpec_add_two]
  push_cast
  ring

theorem fibSpec_le_succ (n : Nat) : fibSpec n ≤ fibSpec (n + 1) := by
  cases n with
  | zero => simp [fibSpec]
  | succ m =>
    rw [fibSpec_add_two]
    exact Nat.le_add_left _ _

theorem fibSpec_mono : Monotone fibSpec :=
  monotone_nat_of_le_succ fibSpec_le_succ

/-! ### The loop computes the wrapped Fibonacci numbers -/

theorem fibLoop_succ (k : Nat) (a b c : Int) :
    fibLoop (k + 1) a b c = fibLoop k b (wrap32 (a + b)) (wrap32 (a + b)) := rfl

theorem fibLoop_wrap (k : Nat) :
    ∀ (m : Nat) (c : Int),
      fibLoop (k + 1) (wrap32 (fibSpec m)) (wrap32 (fibSpec (m + 1))) c
        = wrap32 (fibSpec (m + k + 2)) := by
  induction k with
  | zero =>
    intro m c
    rw [fibLoop_succ, fibLoop]
    rw [wrap32_add_wrap, ← fibSpec_cast_add]
  | succ k ih =>
    intro m c
    rw [fibLoop_succ]
    rw [show wrap32 (wrap32 (fibSpec m : Int) + wrap32 (fibSpec (m + 1) : Int))
          = wrap32 (fibSpec (m + 1 + 1)) from by
        rw [wrap32_add_wrap, ← fibSpec_cast_add]]
    rw [ih (m + 1)]
    rw [show m + 1 + k + 2 = m + (k + 1) + 2 from by omega]

/-! ### The while loop: termination, iteration count, and agreement with
`fibLoop` -/

/-- If the guard has `(n - s.i).toNat = k` remaining iterations, `i` stays in
the 32-bit range, and the fuel is at least `k`, then the while loop terminates
after exactly `k` body executions and its final state is `loopBody^[k] s`. -/
theorem loopRun_eq (k : Nat) :
    ∀ (n : Int) (s : LoopState) (fuel : Nat),
      (n - s.i).toNat = k → k ≤ fuel →
      -2147483648 ≤ s.i → n < 2147483648 →
      loopRun n fuel s = some (loopBody^[k] s, k) := by
  induction k with
  | zero =>
    intro n s fuel h _ _ _
    have hg : ¬ s.i < n := by omega
    cases fuel with
    | zero => simp [loopRun, hg]
    | succ f => simp [loopRun, hg]
  | succ k ih =>
    intro n s fuel h hf h1 h2
    have hg : s.i < n := by omega
    cases fuel with
    | zero => omega
    | succ f =>
      have hi : (loopBody s).i = s.i + 1 := by
        show wrap32 (s.i + 1) = s.i + 1
        apply wrap32_eq_self <;> omega
      simp only [loopRun, if_pos hg]
      rw [ih n (loopBody s) f (by rw [hi]; omega) (by omega) (by rw [hi]; omega) h2]
      simp [Function.iterate_succ_apply]

/-- The `fibonacci` variable after `k` body executions is `fibLoop k` of the
initial variables. -/
theorem iterate_fibonacci (k : Nat) :
    ∀ s : LoopState,
      (loopBody^[k] s).fibonacci = fibLoop k s.fib1 s.fib2 s.fibonacci := by
  induction k with
  | zero => intro s; rfl
  | succ k ih =>
    intro s
    rw [Function.iterate_succ_apply, ih (loopBody s), fibLoop_succ]
    rfl

/-- Key characterization: for every `n ≥ 1`, `fib_imperative n` is the
two's-complement wrap of the mathematical Fibonacci number `fibSpec n`. -/
theorem fib_imperative_eq_wrap (n : Int) (h : 1 ≤ n) :
    fib_imperative n = wrap32 (fibSpec n.toNat) := by
  rcases lt_or_le n 3 with hlt | hge
  · have h12 : n = 1 ∨ n = 2 := by omega
    have hz : (n - 2).toNat = 0 := by omega
    unfold fib_imperative
    rw [hz]
    rcases h12 with rfl | rfl
    · show (1 : Int) = wrap32 (fibSpec 1)
      decide
    · show (1 : Int) = wrap32 (fibSpec 2)
      decide
  · obtain ⟨k, hk1, hk2⟩ : ∃ k, (n - 2).toNat = k + 1 ∧ n.toNat = k + 3 :=
      ⟨(n - 3).toNat, by omega, by omega⟩
    unfold fib_imperative
    rw [hk1, hk2]
    have h1 : (1 : Int) = wrap32 (fibSpec 1) := by decide
    have h2 : (1 : Int) = wrap32 (fibSpec (1 + 1)) := by decide
    calc fibLoop (k + 1) 1 1 1
        = fibLoop (k + 1) (wrap32 (fibSpec 1)) (wrap32 (fibSpec (1 + 1))) 1 := by
          rw [← h1, ← h2]
      _ = wrap32 (fibSpec (1 + k + 2)) := fibLoop_wrap k 1 1
      _ = wrap32 (fibSpec (k + 3)) := by
          rw [show 1 + k + 2 = k + 3 from by omega]

/-- When the mathematical value fits in a 32-bit signed integer, the wrap is
the identity and `fib_imperative` returns it exactly. -/
theorem fib_imperative_eq_spec (n : Int) (h1 : 1 ≤ n)
    (h2 : (fibSpec n.toNat : Int) < 2147483648) :
    fib_imperative n = (fibSpec n.toNat : Int) := by
  rw [fib_imperative_eq_wrap n h1]
  exact wrap32_eq_self _ (by omega) h2

/-! ### The claims -/

/-- C1: for every integer `n` with `1 ≤ n` such that the `n`-th Fibonacci
number is representable in a 32-bit signed integer, `fib_imperative n`
returns the `n`-th term of the sequence `fib(1)=1`, `fib(2)=1`,
`fib(k)=fib(k-1)+fib(k-2)`. -/
theorem fib_C1 (n : Int) (h1 : 1 ≤ n)
    (h2 : (fibSpec n.toNat : Int) < 2147483648) :
    fib_imperative n = (fibSpec n.toNat : Int) :=
  fib_imperative_eq_spec n h1 h2

theorem fib_C1_witness :
    (1 : Int) ≤ 10 ∧ (fibSpec (10 : Int).toNat : Int) < 2147483648 ∧
      fib_imperative 10 = (fibSpec (10 : Int).toNat : Int) :=
  ⟨by decide, by decide, fib_C1 10 (by decide) (by decide)⟩

/-- C2 counterexample: the recurrence fails at `n = 2`, since
`fib_imperative 2 = 1` while `fib_imperative 1 + fib_imperative 0 = 2`
(the function also returns 1 at 0). -/
theorem fib_C2_cex :
    fib_imperative 2 ≠ fib_imperative 1 + fib_imperative 0 := by decide

/-- C2 amended: for every integer `n ≥ 3`, the outputs satisfy the Fibonacci
recurrence in 32-bit arithmetic:
`fib_imperative n = wrap32 (fib_imperative (n-1) + fib_imperative (n-2))`. -/
theorem fib_C2 (n : Int) (h : 3 ≤ n) :
    fib_imperative n = wrap32 (fib_imperative (n - 1) + fib_imperative (n - 2)) := by
  rw [fib_imperative_eq_wrap n (by omega),
    fib_imperative_eq_wrap (n - 1) (by omega),
    fib_imperative_eq_wrap (n - 2) (by omega), wrap32_add_wrap]
  obtain ⟨k, hk2, hk1, hk0⟩ :
      ∃ k, (n - 2).toNat = k ∧ (n - 1).toNat = k + 1 ∧ n.toNat = k + 2 :=
    ⟨(n - 2).toNat, rfl, by omega, by omega⟩
  rw [hk0, hk1, hk2]
  congr 1
  rw [fibSpec_add_two]
  push_cast
  ring

theorem fib_C2_witness :
    (3 : Int) ≤ 5 ∧
      fib_imperative 5 = wrap32 (fib_imperative (5 - 1) + fib_imperative (5 - 2)) :=
  ⟨by decide, fib_C2 5 (by decide)⟩

/-- C3: for every integer `n ≤ 2`, including every non-positive `n`, the loop
body never executes and `fib_imperative n` returns the initial accumulator
value 1. -/
theorem fib_C3 (n : Int) (h : n ≤ 2) : fib_imperative n = 1 := by
  unfold fib_imperative
  rw [show (n - 2).toNat = 0 from by omega]
  rfl

theorem fib_C3_witness : (-5 : Int) ≤ 2 ∧ fib_imperative (-5) = 1 :=
  ⟨by decide, fib_C3 (-5) (by decide)⟩

set_option maxRecDepth 8000 in
/-- C4 counterexample: monotonicity fails at `n = 46`: `fib_imperative 47`
wraps to the negative value `-1323752223`, which is smaller than
`fib_imperative 46 = 1836311903`. -/
theorem fib_C4_cex : ¬ fib_imperative 46 ≤ fib_imperative (46 + 1) := by decide

/-- C4 amended: for every integer `n ≥ 1` such that the `(n+1)`-th Fibonacci
number is representable in a 32-bit signed integer,
`fib_imperative (n+1) ≥ fib_imperative n`. -/
theorem fib_C4 (n : Int) (h1 : 1 ≤ n)
    (h2 : (fibSpec (n + 1).toNat : Int) < 2147483648) :
    fib_imperative n ≤ fib_imperative (n + 1) := by
  have hmono : fibSpec n.toNat ≤ fibSpec (n + 1).toNat :=
    fibSpec_mono (by omega)
  rw [fib_imperative_eq_spec n h1 (by omega),
    fib_imperative_eq_spec (n + 1) (by omega) h2]
  exact_mod_cast hmono

theorem fib_C4_witness :
    (1 : Int) ≤ 9 ∧ (fibSpec ((9 : Int) + 1).toNat : Int) < 2147483648 ∧
      fib_imperative 9 ≤ fib_imperative (9 + 1) :=
  ⟨by decide, by decide, fib_C4 9 (by decide) (by decide)⟩

/-- C5: the concrete values `fib_imperative 1 = 1`, `fib_imperative 2 = 1`,
`fib_imperative 3 = 2`, `fib_imperative 4 = 3`, `fib_imperative 5 = 5`,
`fib_imperative 10 = 55`. -/
theorem fib_C5 :
    fib_imperative 1 = 1 ∧ fib_imperative 2 = 1 ∧ fib_imperative 3 = 2 ∧
      fib_imperative 4 = 3 ∧ fib_imperative 5 = 5 ∧ fib_imperative 10 = 55 := by
  decide

/-- C6: for every 32-bit signed integer input `n` (negative and zero
included), the while loop terminates — fuel `2^31` always suffices — and the
function returns a value, namely `fib_imperative n`; no input is rejected and
no failure is signaled. -/
theorem fib_C6 (n : Int) (h1 : -2147483648 ≤ n) (h2 : n < 2147483648) :
    ∃ p : LoopState × Nat, loopRun n 2147483648 fibInitState = some p ∧
      p.1.fibonacci = fib_imperative n := by
  refine ⟨(loopBody^[(n - 2).toNat] fibInitState, (n - 2).toNat), ?_, ?_⟩
  · apply loopRun_eq
    · rfl
    · omega
    · show (-2147483648 : Int) ≤ 2
      omega
    · exact h2
  · rw [iterate_fibonacci]
    rfl

theorem fib_C6_witness :
    (-2147483648 : Int) ≤ 7 ∧ (7 : Int) < 2147483648 ∧
      ∃ p : LoopState × Nat, loopRun 7 2147483648 fibInitState = some p ∧
        p.1.fibonacci = fib_imperative 7 :=
  ⟨by decide, by decide, fib_C6 7 (by decide) (by decide)⟩

/-- C7: for every integer `n ≥ 1`, `fib_imperative n` equals the mathematical
`n`-th Fibonacci number reduced modulo `2^32` and reinterpreted as a 32-bit
two's-complement signed integer (`wrap32`); overflow is silently wrapped and
the function returns normally. -/
theorem fib_C7 (n : Int) (h : 1 ≤ n) :
    fib_imperative n = wrap32 (fibSpec n.toNat) :=
  fib_imperative_eq_wrap n h

theorem fib_C7_witness :
    (1 : Int) ≤ 10 ∧ fib_imperative 10 = wrap32 (fibSpec (10 : Int).toNat) :=
  ⟨by decide, fib_C7 10 (by decide)⟩

/-- C8: for every representable `n`, the loop executes exactly
`(n - 2).toNat = max 0 (n - 2)` iterations (the loop counter in the result of
`loopRun` counts one body execution — one Fibonacci addition — per
iteration). -/
theorem fib_C8 (n : Int) (h1 : -2147483648 ≤ n) (h2 : n < 2147483648) :
    ∃ s : LoopState, loopRun n 2147483648 fibInitState = some (s, (n - 2).toNat) ∧
      ((n - 2).toNat : Int) = max 0 (n - 2) := by
  refine ⟨loopBody^[(n - 2).toNat] fibInitState, ?_, ?_⟩
  · apply loopRun_eq
    · rfl
    · omega
    · show (-2147483648 : Int) ≤ 2
      omega
    · exact h2
  · omega

theorem fib_C8_witness :
    (-2147483648 : Int) ≤ 6 ∧ (6 : Int) < 2147483648 ∧
      ∃ s : LoopState, loopRun 6 2147483648 fibInitState = some (s, ((6 : Int) - 2).toNat) ∧
        (((6 : Int) - 2).toNat : Int) = max 0 ((6 : Int) - 2) :=
  ⟨by decide, by decide, fib_C8 6 (by decide) (by decide)⟩

/-- C9: loop invariant. For every `n ≥ 3` in the 32-bit range, at the start
of the `k`-th loop-guard evaluation (`0 ≤ k ≤ n - 2`, counter value
`i = k + 2`, so `2 ≤ i ≤ n`), `fib1` holds the `(i-1)`-th and `fib2` the
`i`-th Fibonacci number, each wrapped to 32-bit two's complement; the
invariant is preserved by every iteration of the body. -/
theorem fib_C9 (n : Int) (h3 : 3 ≤ n) (hn : n < 2147483648) :
    ∀ k : Nat, (k : Int) ≤ n - 2 →
      (loopBody^[k] fibInitState).i = (k : Int) + 2 ∧
      (loopBody^[k] fibInitState).fib1 = wrap32 (fibSpec (k + 1)) ∧
      (loopBody^[k] fibInitState).fib2 = wrap32 (fibSpec (k + 2)) := by
  intro k
  induction k with
  | zero =>
    intro _
    refine ⟨rfl, by decide, by decide⟩
  | succ k ih =>
    intro hk1
    have hk : (k : Int) ≤ n - 2 := by push_cast at hk1 ⊢; omega
    obtain ⟨hi, h1, h2⟩ := ih hk
    rw [Function.iterate_succ_apply']
    refine ⟨?_, ?_, ?_⟩
    · show wrap32 ((loopBody^[k] fibInitState).i + 1) = ((k + 1 : Nat) : Int) + 2
      rw [hi, show ((k : Int) + 2) + 1 = ((k + 1 : Nat) : Int) + 2 from by push_cast; ring]
      refine wrap32_eq_self _ (by push_cast; omega) ?_
      push_cast at hk1 ⊢
      omega
    · show (loopBody^[k] fibInitState).fib2 = wrap32 (fibSpec (k + 1 + 1))
      rw [h2]
    · show wrap32 ((loopBody^[k] fibInitState).fib1 + (loopBody^[k] fibInitState).fib2)
          = wrap32 (fibSpec (k + 1 + 2))
      rw [h1, h2, wrap32_add_wrap]
      have hc : ((fibSpec (k + 1 + 2) : Nat) : Int)
          = (fibSpec (k + 1) : Int) + (fibSpec (k + 2) : Int) := by
        rw [fibSpec_cast_add (k + 1), show k + 1 + 1 = k + 2 from by omega]
      rw [← hc]

theorem fib_C9_witness :
    (3 : Int) ≤ 5 ∧ (5 : Int) < 2147483648 ∧ ((2 : Nat) : Int) ≤ 5 - 2 ∧
      ((loopBody^[2] fibInitState).i = ((2 : Nat) : Int) + 2 ∧
        (loopBody^[2] fibInitState).fib1 = wrap32 (fibSpec (2 + 1)) ∧
        (loopBody^[2] fibInitState).fib2 = wrap32 (fibSpec (2 + 2))) :=
  ⟨by decide, by decide, by decide, fib_C9 5 (by decide) (by decide) 2 (by decide)⟩

/-- C10: `fib_imperative` is deterministic and self-contained: its result is
a function of the argument `n` alone (the embedding has no other state to
read or write), so two runs with equal arguments return equal results. -/
theorem fib_C10 (a b : Int) (h : a = b) :
    fib_imperative a = fib_imperative b := by rw [h]

theorem fib_C10_witness : (3 : Int) = 3 ∧ fib_imperative 3 = fib_imperative 3 :=
  ⟨rfl, fib_C10 3 3 rfl⟩
